import Mathlib

/-!
Verification of the fake-news-checker backend (Python) against its
natural-language specification, via a shallow embedding in Lean 4.

Python strings are modelled as `String`/`List Char` (sequences of Unicode
code points, so `len` corresponds to `String.length`/`List.length`);
floating-point similarity scores are modelled as exact rationals `ℚ`;
fallible operations return `Option`/`Except`.  External collaborators
(the sentence-transformers embedding model, Unicode NFC normalization,
the network) are modelled as explicit function parameters, since the
repository consumes them as black boxes.
-/

namespace FNC

/-! ### text_utils.normalize_text

`normalize_text` (backend/text_utils.py) performs, in order:
`unicodedata.normalize("NFC", text)`, `str.lower`, a regex substitution
replacing every character outside a whitelist (word characters, whitespace,
basic punctuation `.,!?;:-()`, and the Vietnamese diacritic letters) by a
space, a substitution collapsing whitespace runs to a single space, and a
final `strip`.
-/

/-- Lowercase Vietnamese diacritic letters, exactly the set written in the
character class of the regex in `normalize_text`. -/
def vietLower : List Char :=
  ['á', 'à', 'ả', 'ã', 'ạ', 'ă', 'ắ', 'ằ', 'ẳ', 'ẵ', 'ặ',
   'â', 'ấ', 'ầ', 'ẩ', 'ẫ', 'ậ', 'é', 'è', 'ẻ', 'ẽ', 'ẹ',
   'ê', 'ế', 'ề', 'ể', 'ễ', 'ệ', 'í', 'ì', 'ỉ', 'ĩ', 'ị',
   'ó', 'ò', 'ỏ', 'õ', 'ọ', 'ô', 'ố', 'ồ', 'ổ', 'ỗ', 'ộ',
   'ơ', 'ớ', 'ờ', 'ở', 'ỡ', 'ợ', 'ú', 'ù', 'ủ', 'ũ', 'ụ',
   'ư', 'ứ', 'ừ', 'ử', 'ữ', 'ự', 'ý', 'ỳ', 'ỷ', 'ỹ', 'ỵ', 'đ']

/-- Uppercase counterparts of `vietLower`, in the same order. -/
def vietUpper : List Char :=
  ['Á', 'À', 'Ả', 'Ã', 'Ạ', 'Ă', 'Ắ', 'Ằ', 'Ẳ', 'Ẵ', 'Ặ',
   'Â', 'Ấ', 'Ầ', 'Ẩ', 'Ẫ', 'Ậ', 'É', 'È', 'Ẻ', 'Ẽ', 'Ẹ',
   'Ê', 'Ế', 'Ề', 'Ể', 'Ễ', 'Ệ', 'Í', 'Ì', 'Ỉ', 'Ĩ', 'Ị',
   'Ó', 'Ò', 'Ỏ', 'Õ', 'Ọ', 'Ô', 'Ố', 'Ồ', 'Ổ', 'Ỗ', 'Ộ',
   'Ơ', 'Ớ', 'Ờ', 'Ở', 'Ỡ', 'Ợ', 'Ú', 'Ù', 'Ủ', 'Ũ', 'Ụ',
   'Ư', 'Ứ', 'Ừ', 'Ử', 'Ữ', 'Ự', 'Ý', 'Ỳ', 'Ỷ', 'Ỹ', 'Ỵ', 'Đ']

/-- The uppercase-to-lowercase table used to model Python's `str.lower`
on the character repertoire handled by this backend
(ASCII letters plus the Vietnamese diacritic letters). -/
def lowerPairs : List (Char × Char) :=
  (['A','B','C','D','E','F','G','H','I','J','K','L','M',
    'N','O','P','Q','R','S','T','U','V','W','X','Y','Z'].zip
   ['a','b','c','d','e','f','g','h','i','j','k','l','m',
    'n','o','p','q','r','s','t','u','v','w','x','y','z']) ++
  vietUpper.zip vietLower

/-- Model of Python `str.lower` on one character. -/
def lowerChar (c : Char) : Char :=
  match lowerPairs.lookup c with
  | some l => l
  | none => c

/-- Model of Python `str.lower` (code-point-wise on this repertoire). -/
def pyLower (l : List Char) : List Char := l.map lowerChar

/-- Model of the Python regex `\w` (Unicode word character), restricted to
the ASCII + Vietnamese repertoire this backend processes. -/
def isWordChar (c : Char) : Bool :=
  c.isAlphanum || c = '_' || vietLower.contains c || vietUpper.contains c

/-- The basic punctuation admitted by the whitelist `.,!?;:\-\(\)`. -/
def punctChars : List Char := ['.', ',', '!', '?', ';', ':', '-', '(', ')']

/-- Membership in the regex character class
`[\w\s.,!?;:\-\(\)áà...đ]` of `normalize_text`. -/
def isAllowed (c : Char) : Bool :=
  isWordChar c || c.isWhitespace || punctChars.contains c

/-- One step of `re.sub(r"[^\w\s...]", " ", text)`: a character outside the
whitelist becomes a space (the class matches single characters, so the
substitution is code-point-wise). -/
def subChar (c : Char) : Char := if isAllowed c then c else ' '

/-- First half of `re.sub(r"\s+", " ", text)`: every whitespace character
is turned into a plain space. -/
def collapseMap (c : Char) : Char := if c.isWhitespace then ' ' else c

/-- Second half of `re.sub(r"\s+", " ", text)`: adjacent duplicate spaces
are merged, so a whitespace run becomes a single space. -/
def squeeze : List Char → List Char
  | [] => []
  | [a] => [a]
  | a :: b :: r =>
    if a = ' ' && b = ' ' then squeeze (b :: r) else a :: squeeze (b :: r)

/-- `re.sub(r"\s+", " ", text)`: whitespace runs collapse to one space. -/
def collapse (l : List Char) : List Char := squeeze (l.map collapseMap)

/-- Python `str.strip`: drop whitespace from both ends. -/
def pyStrip (l : List Char) : List Char :=
  ((l.dropWhile (·.isWhitespace)).reverse.dropWhile (·.isWhitespace)).reverse

/-- `text_utils.normalize_text`, parametric in the external Unicode NFC
normalization `nfc` (`unicodedata.normalize("NFC", ·)` is library code
outside this repository).  `if not text: return ""` is the empty-string
guard; the `None` case of the `Optional[str]` argument also returns `""`
and is subsumed by it. -/
def normalize_text (nfc : List Char → List Char) (t : List Char) : List Char :=
  if t = [] then []
  else pyStrip (collapse ((pyLower (nfc t)).map subChar))

/-- `normalize_text` on `String`, the shape used by the other modules. -/
def normalizeStr (nfc : List Char → List Char) (s : String) : String :=
  ⟨normalize_text nfc s.data⟩

/-! ### similarity_checker.py

`SimilarityChecker` wraps a sentence-transformers model.  The model and
`util.cos_sim` are external library code, modelled by an abstract encoding
type `E`, an encoding function `encode : String → E` (`self.model.encode`,
which on a list of sentences encodes each sentence) and a pairwise score
`cosSim : E → E → ℚ`. -/

/-- One entry of the list returned by `calculate_similarity_batch`:
the dict `\x7btext, similarity, index\x7d` built in the enumerate loop. -/
structure SimEntry where
  text : String
  similarity : ℚ
  index : ℕ
deriving DecidableEq, Repr

/-- `SimilarityChecker.calculate_similarity`: encode both texts and take
their cosine similarity. -/
def calculate_similarity {E : Type} (encode : String → E) (cosSim : E → E → ℚ)
    (text1 text2 : String) : ℚ :=
  cosSim (encode text1) (encode text2)

/-- The list built by
`for idx, (text, sim) in enumerate(zip(reference_texts, similarities))`
where `similarities` are the 1-vs-N cosine scores of the query embedding
against the reference embeddings, starting at index `i`. -/
def simEntries {E : Type} (encode : String → E) (cosSim : E → E → ℚ)
    (qe : E) (i : ℕ) : List String → List SimEntry
  | [] => []
  | r :: rs =>
    ⟨r, cosSim qe (encode r), i⟩ :: simEntries encode cosSim qe (i + 1) rs

/-- The comparison used to model
`results.sort(key=lambda x: x["similarity"], reverse=True)`:
Python's sort is stable, and with `reverse=True` it stably sorts into
descending key order, which is exactly `mergeSort` with this relation. -/
def simDesc (a b : SimEntry) : Bool := decide (b.similarity ≤ a.similarity)

/-- `SimilarityChecker.calculate_similarity_batch`. -/
def calculate_similarity_batch {E : Type} (encode : String → E)
    (cosSim : E → E → ℚ) (query_text : String) (reference_texts : List String) :
    List SimEntry :=
  (simEntries encode cosSim (encode query_text) 0 reference_texts).mergeSort simDesc

/-- The dict returned by `SimilarityChecker.generate_verdict`. -/
structure Verdict where
  verdict : String
  label : String
  explanation : String
  color : String
  similarity_score : ℚ
  confidence : ℚ
deriving DecidableEq, Repr

/-- `SimilarityChecker.generate_verdict`: threshold cascade on the
similarity score, plus `confidence = abs(similarity_score - 0.5) * 2`
(the code applies no clamping). -/
def generate_verdict (similarity_score : ℚ) : Verdict :=
  let confidence : ℚ := |similarity_score - 0.5| * 2
  if similarity_score ≥ 0.85 then
    ⟨"HIGHLY_LIKELY_TRUE", "Rất có khả năng đúng",
     "Nội dung có độ tương đồng rất cao với các nguồn tin uy tín.",
     "green", similarity_score, confidence⟩
  else if similarity_score ≥ 0.70 then
    ⟨"LIKELY_TRUE", "Có khả năng đúng",
     "Nội dung khá tương đồng với các nguồn tin uy tín, nhưng cần xem xét thêm.",
     "lightgreen", similarity_score, confidence⟩
  else if similarity_score ≥ 0.50 then
    ⟨"UNCERTAIN", "Không chắc chắn",
     "Nội dung có một số điểm tương đồng nhưng cần kiểm chứng kỹ hơn.",
     "orange", similarity_score, confidence⟩
  else if similarity_score ≥ 0.30 then
    ⟨"LIKELY_FALSE", "Có khả năng sai",
     "Nội dung có ít điểm tương đồng với các nguồn tin uy tín.",
     "coral", similarity_score, confidence⟩
  else
    ⟨"HIGHLY_LIKELY_FALSE", "Rất có khả năng sai",
     "Nội dung có độ tương đồng rất thấp với các nguồn tin uy tín.",
     "red", similarity_score, confidence⟩

/-- The clamp function named by the specification
(`clamp(x, lo, hi)`, written here as `clamp x lo hi`).  This definition
follows the spec's words, for comparison with the code's `confidence`. -/
def clamp (x lo hi : ℚ) : ℚ := max lo (min hi x)

/-! ### crawler.py -/

/-- The dict returned by a successful extraction strategy of
`Crawler` / `TextPreprocessor`: title, description, content, url, domain. -/
structure CrawlDoc where
  title : String
  description : String
  content : String
  url : String
  domain : String
deriving DecidableEq, Repr

/-- `Crawler.extract_from_url`, with the three network strategies
(`_try_requests_method`, `_try_archive_method`,
`_try_search_snippet_method`) abstracted as `strat 0`, `strat 1`,
`strat 2` (each a black-box fetch whose outcome for the given URL is an
optional document).  Alongside the result we record the invocation trace:
which strategies run, in order.  The `is_valid_article_url` check at the
top only logs a warning and does not affect the result, so it is omitted
here. -/
def extract_from_url (strat : Fin 3 → Option CrawlDoc) :
    Option CrawlDoc × List (Fin 3) :=
  match strat 0 with
  | some r => (some r, [0])
  | none =>
    match strat 1 with
    | some r => (some r, [0, 1])
    | none =>
      match strat 2 with
      | some r => (some r, [0, 1, 2])
      | none => (none, [0, 1, 2])

/-- The success test and record construction of `_try_requests_method`
(shared verbatim by `_try_archive_method`): after fetching and parsing,
`if content and len(content) > 100:` return the record with all extracted
strings normalized, else fail this attempt.  The fetch/parse outcome is
given by the raw `title`, `description` and `content` strings. -/
def try_requests_success (nfc : List Char → List Char)
    (title description content url domain : String) : Option CrawlDoc :=
  if content ≠ "" ∧ 100 < content.length then
    some ⟨normalizeStr nfc title, normalizeStr nfc description,
          normalizeStr nfc content, url, domain⟩
  else none

/-! ### fact_checker.py -/

/-- The preprocessor output fields that `check_fact` consumes. -/
structure Processed where
  title : String
  keywords : List String
  domain : Option String
  full_text : String
deriving DecidableEq, Repr

/-- A candidate article from `WebSearcher.search_for_fact_check`. -/
structure RefArticle where
  url : String
  title : String
  snippet : String
  source : String
deriving DecidableEq, Repr

/-- An element of `reference_contents`: crawled evidence kept for scoring. -/
structure EvidenceRec where
  url : String
  title : String
  content : String
  domain : String
  snippet : String
  source : String
deriving DecidableEq, Repr

/-- An element of `similarity_results` (and of `top_references`). -/
structure ScoredRef where
  url : String
  title : String
  domain : String
  source : String
  overall_similarity : ℚ
deriving DecidableEq, Repr

/-- The result dict of `FactChecker.check_fact` (the fields the claims
are about; `timestamp`, `original_input` and the logging are omitted). -/
structure CheckResult where
  status : String
  error : Option String := none
  message : Option String := none
  verdict : Option Verdict := none
  highest_similarity : Option ℚ := none
  similarity_details : List ScoredRef := []
  top_references : List ScoredRef := []
deriving DecidableEq, Repr

/-- The crawl fan-out collection loop of `check_fact` step 4: each article
is paired with the outcome of `preprocessor._process_url` on its URL
(a fault, `None`, or a document — outcomes listed in completion order,
which the thread pool does not fix; the order is a parameter here).  An
article is kept iff its future neither raised (`Except.error`, caught and
logged per-article) nor returned `None`, and the extracted content is
non-empty (`if content and content["content"]`); the title falls back to
the article title when the extracted one is empty
(`content["title"] or article["title"]`). -/
def referenceContents (articles : List RefArticle)
    (crawlRes : List (Except String (Option CrawlDoc))) : List EvidenceRec :=
  (articles.zip crawlRes).filterMap fun ar =>
    match ar.2 with
    | .error _ => none
    | .ok none => none
    | .ok (some d) =>
      if d.content = "" then none
      else some ⟨ar.1.url, if d.title = "" then ar.1.title else d.title,
                 d.content, d.domain, ar.1.snippet, ar.1.source⟩

/-- Step 5 of `check_fact`: `similarity_results` is built from the batch
scores; `batch_item["index"]` points back into `reference_contents`
(always in range, since the batch was computed over exactly that list;
out-of-range lookups, which cannot occur, give a blank record). -/
def buildScored (rc : List EvidenceRec) (batch : List SimEntry) :
    List ScoredRef :=
  batch.map fun b =>
    match rc[b.index]? with
    | some r => ⟨r.url, r.title, r.domain, r.source, b.similarity⟩
    | none => ⟨"", "", "", "", b.similarity⟩

/-- The fixed refutation-indicator list of `check_fact` step 6. -/
def refutation_keywords : List String :=
  ["bác bỏ", "phủ nhận", "đính chính", "tin đồn", "tin giả",
   "sự thật", "thực hư", "giả mạo", "vu khống"]

/-- Does `needle` start `hay`? (helper for substring containment). -/
def startsWithL : List Char → List Char → Bool
  | _, [] => true
  | [], _ :: _ => false
  | a :: as, b :: bs => a = b && startsWithL as bs

/-- Python's `needle in hay` substring test on strings. -/
def containsSubL : List Char → List Char → Bool
  | [], needle => startsWithL [] needle
  | hay@(_ :: t), needle => startsWithL hay needle || containsSubL t needle

/-- `keyword in title_lower` where `title_lower = r["title"].lower()`. -/
def hasRefutation (title : String) : Bool :=
  refutation_keywords.any fun k => containsSubL (pyLower title.data) k.data

/-- The per-item refutation adjustment of `check_fact` step 6:
`1.0 - score` iff the lowercased title contains a refutation keyword and
the raw similarity exceeds `0.6`, otherwise the raw score. -/
def adjustScore (r : ScoredRef) : ℚ :=
  if hasRefutation r.title && decide (r.overall_similarity > 0.6) then
    1 - r.overall_similarity
  else r.overall_similarity

/-- `top_results = similarity_results[: min(3, len(similarity_results))]`. -/
def topResults (sims : List ScoredRef) : List ScoredRef :=
  sims.take (min 3 sims.length)

/-- `final_scores`: the adjusted scores of the top results, in order. -/
def final_scores (top : List ScoredRef) : List ℚ := top.map adjustScore

/-- The descending comparison for `sorted(final_scores, reverse=True)`. -/
def qDesc (a b : ℚ) : Bool := decide (b ≤ a)

/-- `highest_similarity`: `0` when there are no top results, else the head
of the descending-sorted adjusted scores
(`top_scores[0] if top_scores else 0`). -/
def highestSimilarity (sims : List ScoredRef) : ℚ :=
  let top := topResults sims
  if top = [] then 0
  else ((final_scores top).mergeSort qDesc).headD 0

/-- `FactChecker.check_fact`, with the collaborator outcomes as
parameters: `preRes` (`preprocessor.process_input`: a fault, `None`, or
the processed dict), `searchRes` (`searcher.search_for_fact_check`),
`crawlRes` (the per-article crawl outcomes of step 4), and `scoreFault`
(`some e` when the scoring stage raises `e`).  A fault raised in a stage
propagates to the single `try/except Exception` wrapping the body, which
returns a result with status `"error"` carrying the message. -/
def check_fact {E : Type} (encode : String → E) (cosSim : E → E → ℚ)
    (preRes : Except String (Option Processed))
    (searchRes : Except String (List RefArticle))
    (crawlRes : List (Except String (Option CrawlDoc)))
    (scoreFault : Option String) : CheckResult :=
  match preRes with
  | .error e => { status := "error", error := some e }
  | .ok none => { status := "error", error := some "Không thể xử lý input" }
  | .ok (some p) =>
    if p.keywords = [] ∧ p.full_text.length < 15 then
      { status := "input_too_short"
        message := some "Nội dung quá ngắn hoặc không đủ ngữ nghĩa để phân tích. Vui lòng cung cấp thêm chi tiết." }
    else
      match searchRes with
      | .error e => { status := "error", error := some e }
      | .ok [] =>
        { status := "no_references"
          message := some "Không tìm thấy bài báo tham khảo từ nguồn uy tín" }
      | .ok (a :: arts) =>
        let rc := referenceContents (a :: arts) crawlRes
        if rc = [] then
          { status := "crawl_failed"
            message := some "Không thể crawl nội dung từ các bài báo tham khảo" }
        else
          match scoreFault with
          | some e => { status := "error", error := some e }
          | none =>
            let batch := calculate_similarity_batch encode cosSim
              p.full_text (rc.map (·.content))
            let sims := buildScored rc batch
            let hs := highestSimilarity sims
            { status := "success"
              verdict := some (generate_verdict hs)
              highest_similarity := some hs
              similarity_details := sims
              top_references := topResults sims }

/-! ### api.py -/

/-- The number of whitespace-separated words,
`len(content.split())`: maximal non-whitespace runs. -/
def countWordsAux : List Char → Bool → ℕ
  | [], _ => 0
  | c :: r, inWord =>
    if c.isWhitespace then countWordsAux r false
    else (if inWord then 0 else 1) + countWordsAux r true

/-- `len(content.split())` on a `String`. -/
def countWords (s : String) : ℕ := countWordsAux s.data false

/-- Python `str.strip` on `String`. -/
def pyStripStr (s : String) : String := ⟨pyStrip s.data⟩

/-- `FactCheckRequest.validate_content_based_on_type` for the `content`
and `input_type` fields: empty (or whitespace-only) content is rejected;
a `"text"` request with fewer than 3 words is rejected with
`ValueError("Content quá ngắn (tối thiểu 3 từ)")`; otherwise the stripped
content is accepted. -/
def validate_content (content input_type : String) : Except String String :=
  if pyStripStr content = "" then .error "Content không được để trống"
  else if input_type = "text" ∧ countWords content < 3 then
    .error "Content quá ngắn (tối thiểu 3 từ)"
  else .ok (pyStripStr content)

/-- The `/api/check` endpoint: pydantic validation runs first and a
`ValueError` is surfaced as an HTTP 400; only a validated request reaches
`fact_checker_instance.check_fact` (abstracted as `pipeline`, applied to
the stripped content and the input type). -/
def api_check {R : Type} (pipeline : String → String → R)
    (content input_type : String) : Except String R :=
  (validate_content content input_type).map fun c => pipeline c input_type

/-! ### Helper lemmas: generate_verdict -/

theorem generate_verdict_of_band1 {s : ℚ} (h : 0.85 ≤ s) :
    generate_verdict s =
      ⟨"HIGHLY_LIKELY_TRUE", "Rất có khả năng đúng",
       "Nội dung có độ tương đồng rất cao với các nguồn tin uy tín.",
       "green", s, |s - 0.5| * 2⟩ := by
  rw [generate_verdict, if_pos (ge_iff_le.mpr h)]

theorem generate_verdict_of_band2 {s : ℚ} (h : 0.70 ≤ s) (h' : s < 0.85) :
    generate_verdict s =
      ⟨"LIKELY_TRUE", "Có khả năng đúng",
       "Nội dung khá tương đồng với các nguồn tin uy tín, nhưng cần xem xét thêm.",
       "lightgreen", s, |s - 0.5| * 2⟩ := by
  rw [generate_verdict, if_neg (by simpa using not_le.mpr h'),
    if_pos (ge_iff_le.mpr h)]

theorem generate_verdict_of_band3 {s : ℚ} (h : 0.50 ≤ s) (h' : s < 0.70) :
    generate_verdict s =
      ⟨"UNCERTAIN", "Không chắc chắn",
       "Nội dung có một số điểm tương đồng nhưng cần kiểm chứng kỹ hơn.",
       "orange", s, |s - 0.5| * 2⟩ := by
  rw [generate_verdict, if_neg (by simpa using not_le.mpr (by linarith : s < 0.85)),
    if_neg (by simpa using not_le.mpr h'), if_pos (ge_iff_le.mpr h)]

theorem generate_verdict_of_band4 {s : ℚ} (h : 0.30 ≤ s) (h' : s < 0.50) :
    generate_verdict s =
      ⟨"LIKELY_FALSE", "Có khả năng sai",
       "Nội dung có ít điểm tương đồng với các nguồn tin uy tín.",
       "coral", s, |s - 0.5| * 2⟩ := by
  rw [generate_verdict, if_neg (by simpa using not_le.mpr (by linarith : s < 0.85)),
    if_neg (by simpa using not_le.mpr (by linarith : s < 0.70)),
    if_neg (by simpa using not_le.mpr h'), if_pos (ge_iff_le.mpr h)]

theorem generate_verdict_of_band5 {s : ℚ} (h' : s < 0.30) :
    generate_verdict s =
      ⟨"HIGHLY_LIKELY_FALSE", "Rất có khả năng sai",
       "Nội dung có độ tương đồng rất thấp với các nguồn tin uy tín.",
       "red", s, |s - 0.5| * 2⟩ := by
  rw [generate_verdict, if_neg (by simpa using not_le.mpr (by linarith : s < 0.85)),
    if_neg (by simpa using not_le.mpr (by linarith : s < 0.70)),
    if_neg (by simpa using not_le.mpr (by linarith : s < 0.50)),
    if_neg (by simpa using not_le.mpr h')]

theorem generate_verdict_confidence (s : ℚ) :
    (generate_verdict s).confidence = |s - 0.5| * 2 := by
  rw [generate_verdict]
  split_ifs <;> rfl

/-! ### Claim theorems -/

/-- C1: for every similarity score `s ∈ [0,1]`, `generate_verdict` maps
`s` to exactly one band, with inclusive lower and exclusive upper bounds:
`[0.85,1]` HIGHLY_LIKELY_TRUE, `[0.70,0.85)` LIKELY_TRUE, `[0.50,0.70)`
UNCERTAIN, `[0.30,0.50)` LIKELY_FALSE, `[0,0.30)` HIGHLY_LIKELY_FALSE,
and within each band the label, explanation and color are the band's
fixed values. -/
theorem c1_verdict_bands (s : ℚ) (h0 : 0 ≤ s) (h1 : s ≤ 1) :
    ((generate_verdict s).verdict = "HIGHLY_LIKELY_TRUE" ↔ 0.85 ≤ s ∧ s ≤ 1) ∧
    ((generate_verdict s).verdict = "LIKELY_TRUE" ↔ 0.70 ≤ s ∧ s < 0.85) ∧
    ((generate_verdict s).verdict = "UNCERTAIN" ↔ 0.50 ≤ s ∧ s < 0.70) ∧
    ((generate_verdict s).verdict = "LIKELY_FALSE" ↔ 0.30 ≤ s ∧ s < 0.50) ∧
    ((generate_verdict s).verdict = "HIGHLY_LIKELY_FALSE" ↔ 0 ≤ s ∧ s < 0.30) ∧
    ((generate_verdict s).verdict = "HIGHLY_LIKELY_TRUE" →
      (generate_verdict s).label = "Rất có khả năng đúng" ∧
      (generate_verdict s).explanation =
        "Nội dung có độ tương đồng rất cao với các nguồn tin uy tín." ∧
      (generate_verdict s).color = "green") ∧
    ((generate_verdict s).verdict = "LIKELY_TRUE" →
      (generate_verdict s).label = "Có khả năng đúng" ∧
      (generate_verdict s).explanation =
        "Nội dung khá tương đồng với các nguồn tin uy tín, nhưng cần xem xét thêm." ∧
      (generate_verdict s).color = "lightgreen") ∧
    ((generate_verdict s).verdict = "UNCERTAIN" →
      (generate_verdict s).label = "Không chắc chắn" ∧
      (generate_verdict s).explanation =
        "Nội dung có một số điểm tương đồng nhưng cần kiểm chứng kỹ hơn." ∧
      (generate_verdict s).color = "orange") ∧
    ((generate_verdict s).verdict = "LIKELY_FALSE" →
      (generate_verdict s).label = "Có khả năng sai" ∧
      (generate_verdict s).explanation =
        "Nội dung có ít điểm tương đồng với các nguồn tin uy tín." ∧
      (generate_verdict s).color = "coral") ∧
    ((generate_verdict s).verdict = "HIGHLY_LIKELY_FALSE" →
      (generate_verdict s).label = "Rất có khả năng sai" ∧
      (generate_verdict s).explanation =
        "Nội dung có độ tương đồng rất thấp với các nguồn tin uy tín." ∧
      (generate_verdict s).color = "red") := by
  rcases le_or_lt (0.85 : ℚ) s with hA | hA
  · rw [generate_verdict_of_band1 hA]
    refine ⟨?_, ?_, ?_, ?_, ?_, ?_, ?_, ?_, ?_, ?_⟩ <;>
      first
        | exact iff_of_true rfl ⟨hA, h1⟩
        | exact fun h => ⟨rfl, rfl, rfl⟩
        | exact iff_of_false (by simp) (by rintro ⟨ha, hb⟩; linarith)
        | exact fun h => absurd h (by simp)
  · rcases le_or_lt (0.70 : ℚ) s with hB | hB
    · rw [generate_verdict_of_band2 hB hA]
      refine ⟨?_, ?_, ?_, ?_, ?_, ?_, ?_, ?_, ?_, ?_⟩ <;>
        first
          | exact iff_of_true rfl ⟨hB, hA⟩
          | exact fun h => ⟨rfl, rfl, rfl⟩
          | exact iff_of_false (by simp) (by rintro ⟨ha, hb⟩; linarith)
          | exact fun h => absurd h (by simp)
    · rcases le_or_lt (0.50 : ℚ) s with hC | hC
      · rw [generate_verdict_of_band3 hC hB]
        refine ⟨?_, ?_, ?_, ?_, ?_, ?_, ?_, ?_, ?_, ?_⟩ <;>
          first
            | exact iff_of_true rfl ⟨hC, hB⟩
            | exact fun h => ⟨rfl, rfl, rfl⟩
            | exact iff_of_false (by simp) (by rintro ⟨ha, hb⟩; linarith)
            | exact fun h => absurd h (by simp)
      · rcases le_or_lt (0.30 : ℚ) s with hD | hD
        · rw [generate_verdict_of_band4 hD hC]
          refine ⟨?_, ?_, ?_, ?_, ?_, ?_, ?_, ?_, ?_, ?_⟩ <;>
            first
              | exact iff_of_true rfl ⟨hD, hC⟩
              | exact fun h => ⟨rfl, rfl, rfl⟩
              | exact iff_of_false (by simp) (by rintro ⟨ha, hb⟩; linarith)
              | exact fun h => absurd h (by simp)
        · rw [generate_verdict_of_band5 hD]
          refine ⟨?_, ?_, ?_, ?_, ?_, ?_, ?_, ?_, ?_, ?_⟩ <;>
            first
              | exact iff_of_true rfl ⟨h0, hD⟩
              | exact fun h => ⟨rfl, rfl, rfl⟩
              | exact iff_of_false (by simp) (by rintro ⟨ha, hb⟩; linarith)
              | exact fun h => absurd h (by simp)

/-- C1 witness: at the concrete score `0.9`, in `[0,1]`, the verdict is
HIGHLY_LIKELY_TRUE. -/
theorem c1_verdict_bands_witness :
    (generate_verdict 0.9).verdict = "HIGHLY_LIKELY_TRUE" :=
  (c1_verdict_bands 0.9 (by norm_num) (by norm_num)).1.mpr (by norm_num)

/-- C3 counterexample: `generate_verdict` accepts any score, and the code
computes `confidence = |s - 0.5| * 2` without clamping, so at the score
`-1/2` (a value cosine similarity can produce) the confidence is `2`:
it differs from `clamp(|s - 0.5| * 2, 0, 1)` and lies outside `[0,1]`. -/
theorem c3_confidence_counterexample :
    (generate_verdict (-(1/2))).confidence = 2 ∧
    clamp (|(-(1/2) : ℚ) - 0.5| * 2) 0 1 = 1 ∧
    (generate_verdict (-(1/2))).confidence ≠
      clamp (|(-(1/2) : ℚ) - 0.5| * 2) 0 1 ∧
    1 < (generate_verdict (-(1/2))).confidence := by
  rw [generate_verdict_confidence, clamp]
  norm_num

/-- C3 amended: for every score `s ∈ [0,1]`, the returned confidence is
`|s - 0.5| * 2`, which on this range coincides with
`clamp(|s - 0.5| * 2, 0, 1)`; it is `0` at `s = 0.5`, `1` at `s = 0` and
at `s = 1`, and always lies in `[0,1]`.  (The code never clamps, so for
scores outside `[0,1]` the confidence can exceed `1`.) -/
theorem c3_confidence_clamped (s : ℚ) (h0 : 0 ≤ s) (h1 : s ≤ 1) :
    (generate_verdict s).confidence = |s - 0.5| * 2 ∧
    (generate_verdict s).confidence = clamp (|s - 0.5| * 2) 0 1 ∧
    0 ≤ (generate_verdict s).confidence ∧
    (generate_verdict s).confidence ≤ 1 ∧
    (s = 0.5 → (generate_verdict s).confidence = 0) ∧
    (s = 0 → (generate_verdict s).confidence = 1) ∧
    (s = 1 → (generate_verdict s).confidence = 1) := by
  have habs : |s - 0.5| ≤ 0.5 := abs_le.mpr ⟨by linarith, by linarith⟩
  have hpos : (0 : ℚ) ≤ |s - 0.5| := abs_nonneg _
  rw [generate_verdict_confidence, clamp]
  refine ⟨rfl, ?_, by linarith, by linarith, ?_, ?_, ?_⟩
  · rw [min_eq_right (by linarith), max_eq_right (by linarith)]
  · rintro rfl; norm_num
  · rintro rfl; rw [abs_sub_comm]; norm_num [abs_of_pos]
  · rintro rfl; norm_num [abs_of_pos]

/-- C3 witness: at `s = 0.3`, the hypotheses hold and the confidence is
`0.4 = clamp(|0.3 - 0.5| * 2, 0, 1)`. -/
theorem c3_confidence_clamped_witness :
    (generate_verdict 0.3).confidence = clamp (|(0.3 : ℚ) - 0.5| * 2) 0 1 :=
  (c3_confidence_clamped 0.3 (by norm_num) (by norm_num)).2.1

/-- C5: `extract_from_url` tries the three strategies (direct fetch,
archive snapshot, search snippet) in exactly this order, returns the
first success without invoking any later strategy, invokes each strategy
at most once (the trace is strictly increasing), and returns `None`
exactly when all three fail; a strategy runs iff every earlier one
failed. -/
theorem c5_extraction_fallback (strat : Fin 3 → Option CrawlDoc) :
    ((extract_from_url strat).1 = none ↔
      strat 0 = none ∧ strat 1 = none ∧ strat 2 = none) ∧
    (∀ r, strat 0 = some r → extract_from_url strat = (some r, [0])) ∧
    (∀ r, strat 0 = none → strat 1 = some r →
      extract_from_url strat = (some r, [0, 1])) ∧
    (∀ r, strat 0 = none → strat 1 = none → strat 2 = some r →
      extract_from_url strat = (some r, [0, 1, 2])) ∧
    (strat 0 = none → strat 1 = none → strat 2 = none →
      extract_from_url strat = (none, [0, 1, 2])) ∧
    (extract_from_url strat).2.Pairwise (· < ·) ∧
    (extract_from_url strat).2.Nodup ∧
    (∀ k : Fin 3, k ∈ (extract_from_url strat).2 ↔ ∀ j < k, strat j = none) := by
  rcases h0 : strat 0 with - | r0
  · rcases h1 : strat 1 with - | r1
    · rcases h2 : strat 2 with - | r2
      · have he : extract_from_url strat = (none, [0, 1, 2]) := by
          simp [extract_from_url, h0, h1, h2]
        rw [he]
        refine ⟨by simp, ?_, ?_, ?_, fun _ _ _ => rfl,
          (by decide : ([0, 1, 2] : List (Fin 3)).Pairwise (· < ·)),
          (by decide : ([0, 1, 2] : List (Fin 3)).Nodup), ?_⟩
        · intro r hr; cases hr
        · intro r _ hr; cases hr
        · intro r _ _ hr; cases hr
        · intro k
          refine iff_of_true (by fin_cases k <;> simp) ?_
          intro j hj
          fin_cases k <;> fin_cases j <;>
            first
              | exact h0
              | exact h1
              | exact h2
      · have he : extract_from_url strat = (some r2, [0, 1, 2]) := by
          simp [extract_from_url, h0, h1, h2]
        rw [he]
        refine ⟨by simp, ?_, ?_, ?_, ?_,
          (by decide : ([0, 1, 2] : List (Fin 3)).Pairwise (· < ·)),
          (by decide : ([0, 1, 2] : List (Fin 3)).Nodup), ?_⟩
        · intro r hr; cases hr
        · intro r _ hr; cases hr
        · intro r _ _ hr; injection hr with h; rw [h]
        · intro _ _ hr; cases hr
        · intro k
          refine iff_of_true (by fin_cases k <;> simp) ?_
          intro j hj
          fin_cases k <;> fin_cases j <;>
            first
              | exact h0
              | exact h1
              | exact absurd hj (by decide)
    · have he : extract_from_url strat = (some r1, [0, 1]) := by
        simp [extract_from_url, h0, h1]
      rw [he]
      refine ⟨by simp, ?_, ?_, ?_, ?_,
        (by decide : ([0, 1] : List (Fin 3)).Pairwise (· < ·)),
        (by decide : ([0, 1] : List (Fin 3)).Nodup), ?_⟩
      · intro r hr; cases hr
      · intro r _ hr; injection hr with h; rw [h]
      · intro r _ hr; cases hr
      · intro _ hr; cases hr
      · intro k
        constructor
        · intro hk
          have hk2 : k = 0 ∨ k = 1 := by simpa using hk
          intro j hj
          rcases hk2 with rfl | rfl <;> fin_cases j <;>
            first
              | exact h0
              | exact absurd hj (by decide)
        · intro hall
          fin_cases k
          · simp
          · simp
          · exact absurd (hall 1 (by decide)) (by simp [h1])
  · have he : extract_from_url strat = (some r0, [0]) := by
      simp [extract_from_url, h0]
    rw [he]
    refine ⟨by simp, ?_, ?_, ?_, ?_,
      (by decide : ([0] : List (Fin 3)).Pairwise (· < ·)),
      (by decide : ([0] : List (Fin 3)).Nodup), ?_⟩
    · intro r hr; injection hr with h; rw [h]
    · intro r hr; cases hr
    · intro r hr; cases hr
    · intro hr; cases hr
    · intro k
      constructor
      · intro hk
        have hk2 : k = 0 := by simpa using hk
        subst hk2
        intro j hj
        exact absurd hj (by fin_cases j <;> decide)
      · intro hall
        fin_cases k
        · simp
        · exact absurd (hall 0 (by decide)) (by simp [h0])
        · exact absurd (hall 0 (by decide)) (by simp [h0])

/-- C5 witness: a stub whose first two strategies fail and whose third
succeeds is driven through all three strategies in order and returns the
third strategy's document. -/
theorem c5_extraction_fallback_witness :
    extract_from_url
        (fun k => if k = 2 then some ⟨"t", "d", "c", "u", "dom"⟩ else none) =
      (some ⟨"t", "d", "c", "u", "dom"⟩, [0, 1, 2]) :=
  (c5_extraction_fallback _).2.2.2.1 _ rfl rfl rfl

/-! ### Helper lemmas: descending sort of rational scores -/

theorem qDesc_trans : ∀ a b c : ℚ, qDesc a b → qDesc b c → qDesc a c := by
  intro a b c hab hbc
  simp only [qDesc, decide_eq_true_eq] at *
  exact le_trans hbc hab

theorem qDesc_total : ∀ a b : ℚ, qDesc a b || qDesc b a := by
  intro a b
  simp only [qDesc, Bool.or_eq_true, decide_eq_true_eq]
  exact le_total b a

/-- The head of the descending-sorted copy of a non-empty list of scores
is a member and an upper bound: it is the maximum. -/
theorem headD_mergeSort_qDesc (l : List ℚ) (h : l ≠ []) :
    (l.mergeSort qDesc).headD 0 ∈ l ∧
    ∀ x ∈ l, x ≤ (l.mergeSort qDesc).headD 0 := by
  have hne : l.mergeSort qDesc ≠ [] := by
    intro hcon
    have hlen := @List.length_mergeSort ℚ qDesc l
    rw [hcon] at hlen
    exact h (List.length_eq_zero.mp hlen.symm)
  obtain ⟨a, t, hat⟩ := List.exists_cons_of_ne_nil hne
  have hsor := List.sorted_mergeSort qDesc_trans qDesc_total l
  rw [hat] at hsor
  constructor
  · rw [hat]
    exact List.mem_mergeSort.mp (hat ▸ List.mem_cons_self a t)
  · intro x hx
    have hxm : x ∈ a :: t := hat ▸ List.mem_mergeSort.mpr hx
    rw [hat]
    rcases List.mem_cons.mp hxm with rfl | hxt
    · exact le_refl _
    · have := List.rel_of_pairwise_cons hsor hxt
      simpa [qDesc] using this

/-! ### C2 -/

/-- C2: among the top-3 scored evidence records, the adjusted score is
`1 - raw` exactly when the lowercased title contains a refutation term
and the raw similarity strictly exceeds `0.6`, and the raw score
otherwise; a refutation title with raw similarity `0.9` is adjusted to
`0.1`; `highest_similarity` is the maximum of the adjusted scores, and
`0` when no evidence survives. -/
theorem c2_refutation_adjustment (sims : List ScoredRef) :
    (∀ r ∈ topResults sims,
      (hasRefutation r.title ∧ r.overall_similarity > 0.6 →
        adjustScore r = 1 - r.overall_similarity) ∧
      (¬(hasRefutation r.title ∧ r.overall_similarity > 0.6) →
        adjustScore r = r.overall_similarity)) ∧
    (∀ r : ScoredRef, hasRefutation r.title → r.overall_similarity = 0.9 →
      adjustScore r = 0.1) ∧
    (topResults sims = [] → highestSimilarity sims = 0) ∧
    (topResults sims ≠ [] →
      highestSimilarity sims ∈ final_scores (topResults sims) ∧
      ∀ x ∈ final_scores (topResults sims), x ≤ highestSimilarity sims) := by
  refine ⟨?_, ?_, ?_, ?_⟩
  · intro r _
    constructor
    · intro ⟨h1, h2⟩
      rw [adjustScore, if_pos]
      rw [Bool.and_eq_true, decide_eq_true_eq]
      exact ⟨h1, h2⟩
    · intro hn
      rw [adjustScore, if_neg]
      rw [Bool.and_eq_true, decide_eq_true_eq]
      exact hn
  · intro r h1 h2
    rw [adjustScore, if_pos, h2]
    · norm_num
    · rw [Bool.and_eq_true, decide_eq_true_eq, h2]
      exact ⟨h1, by norm_num⟩
  · intro he
    rw [highestSimilarity, if_pos he]
  · intro he
    have hfs : final_scores (topResults sims) ≠ [] := by
      rw [final_scores]
      simpa using he
    have h := headD_mergeSort_qDesc (final_scores (topResults sims)) hfs
    rw [highestSimilarity, if_neg he]
    exact h

/-- C2 witness: a top-3 record titled with the refutation term
"tin giả" and raw similarity `0.9` is adjusted to `0.1`. -/
theorem c2_refutation_adjustment_witness :
    adjustScore ⟨"u", "Tin giả về vắc-xin", "d", "s", 0.9⟩ = 0.1 :=
  (c2_refutation_adjustment []).2.1 ⟨"u", "Tin giả về vắc-xin", "d", "s", 0.9⟩
    (by decide) rfl

/-! ### Helper lemmas: the batch similarity list -/

theorem simDesc_trans : ∀ a b c : SimEntry, simDesc a b → simDesc b c → simDesc a c := by
  intro a b c hab hbc
  simp only [simDesc, decide_eq_true_eq] at *
  exact le_trans hbc hab

theorem simDesc_total : ∀ a b : SimEntry, simDesc a b || simDesc b a := by
  intro a b
  simp only [simDesc, Bool.or_eq_true, decide_eq_true_eq]
  exact le_total b.similarity a.similarity

theorem simEntries_length {E : Type} (encode : String → E) (cosSim : E → E → ℚ)
    (qe : E) : ∀ (refs : List String) (i : ℕ),
    (simEntries encode cosSim qe i refs).length = refs.length
  | [], _ => rfl
  | _ :: rs, i => by
    simp [simEntries, simEntries_length encode cosSim qe rs (i + 1)]

theorem simEntries_map_index {E : Type} (encode : String → E)
    (cosSim : E → E → ℚ) (qe : E) : ∀ (refs : List String) (i : ℕ),
    (simEntries encode cosSim qe i refs).map (·.index) =
      List.range' i refs.length
  | [], _ => by simp [simEntries]
  | _ :: rs, i => by
    rw [List.length_cons, List.range'_succ]
    simp [simEntries, simEntries_map_index encode cosSim qe rs (i + 1)]

theorem simEntries_get {E : Type} (encode : String → E) (cosSim : E → E → ℚ)
    (qe : E) : ∀ (refs : List String) (i k : ℕ) (hk : k < refs.length)
    (h : k < (simEntries encode cosSim qe i refs).length),
    (simEntries encode cosSim qe i refs).get ⟨k, h⟩ =
      ⟨refs.get ⟨k, hk⟩, cosSim qe (encode (refs.get ⟨k, hk⟩)), i + k⟩
  | [], _, k, hk, _ => absurd hk (by simp)
  | r :: rs, i, 0, hk, h => by simp [simEntries]
  | r :: rs, i, k + 1, hk, h => by
    have hk2 : k < rs.length := by simpa using hk
    have h2 : k < (simEntries encode cosSim qe (i + 1) rs).length := by
      rw [simEntries_length]; exact hk2
    simp only [simEntries, List.get_cons_succ]
    rw [simEntries_get encode cosSim qe rs (i + 1) k hk2 h2,
      show i + 1 + k = i + (k + 1) from by omega]

theorem simEntries_mem {E : Type} {encode : String → E} {cosSim : E → E → ℚ}
    {qe : E} {e : SimEntry} (refs : List String) (i : ℕ)
    (he : e ∈ simEntries encode cosSim qe i refs) :
    ∃ k, ∃ hk : k < refs.length,
      e = ⟨refs.get ⟨k, hk⟩, cosSim qe (encode (refs.get ⟨k, hk⟩)), i + k⟩ := by
  obtain ⟨⟨k, hk0⟩, hget⟩ := List.mem_iff_get.mp he
  have hk : k < refs.length := by
    rw [simEntries_length] at hk0; exact hk0
  exact ⟨k, hk, by rw [← hget, simEntries_get encode cosSim qe refs i k hk hk0]⟩

/-! ### Helper lemmas: positions and pair sublists -/

theorem pair_sublist_of_get {α : Type} :
    ∀ (l : List α) (i j : ℕ) (hi : i < l.length) (hj : j < l.length),
    i < j → List.Sublist [l.get ⟨i, hi⟩, l.get ⟨j, hj⟩] l
  | [], i, _, hi, _, _ => absurd hi (by simp)
  | c :: t, 0, 0, _, _, hij => absurd hij (by omega)
  | c :: t, i + 1, 0, _, _, hij => absurd hij (by omega)
  | c :: t, 0, j + 1, hi, hj, _ => by
    simp only [List.get_cons_succ]
    exact List.Sublist.cons₂ c
      (List.singleton_sublist.mpr (List.get_mem t j _))
  | c :: t, i + 1, j + 1, hi, hj, hij => by
    simp only [List.get_cons_succ]
    exact List.Sublist.cons c
      (pair_sublist_of_get t i j _ _ (by omega))

theorem sublist_pair_get {α : Type} {x y : α} {l : List α}
    (h : List.Sublist [x, y] l) :
    ∃ (i j : ℕ) (hi : i < l.length) (hj : j < l.length),
      i < j ∧ l.get ⟨i, hi⟩ = x ∧ l.get ⟨j, hj⟩ = y := by
  induction l with
  | nil => simp at h
  | cons c t ih =>
    cases h with
    | cons _ h2 =>
      obtain ⟨i, j, hi, hj, hij, hx, hy⟩ := ih h2
      refine ⟨i + 1, j + 1, by simpa using hi, by simpa using hj,
        by omega, ?_, ?_⟩
      · simpa [List.get_cons_succ] using hx
      · simpa [List.get_cons_succ] using hy
    | cons₂ _ h2 =>
      obtain ⟨⟨j, hj⟩, hget⟩ := List.mem_iff_get.mp (List.singleton_sublist.mp h2)
      refine ⟨0, j + 1, by simp, by simpa using Nat.succ_lt_succ hj,
        Nat.succ_pos j, rfl, ?_⟩
      simpa [List.get_cons_succ] using hget

/-! ### C4 -/

/-- C4: for every query and list of n references,
`calculate_similarity_batch` returns exactly n entries whose index fields
are a permutation of `0..n-1`, sorted by similarity in descending order
with ties keeping the original reference order; and if the black-box
pairwise score lies in `[0,1]` then so does every returned similarity. -/
theorem c4_batch_similarity {E : Type} (encode : String → E)
    (cosSim : E → E → ℚ) (q : String) (refs : List String) :
    (calculate_similarity_batch encode cosSim q refs).length = refs.length ∧
    ((calculate_similarity_batch encode cosSim q refs).map (·.index)).Perm
      (List.range refs.length) ∧
    (calculate_similarity_batch encode cosSim q refs).Pairwise
      (fun a b => b.similarity ≤ a.similarity) ∧
    (calculate_similarity_batch encode cosSim q refs).Pairwise
      (fun a b => a.similarity = b.similarity → a.index < b.index) ∧
    ((∀ x y, 0 ≤ cosSim x y ∧ cosSim x y ≤ 1) →
      ∀ e ∈ calculate_similarity_batch encode cosSim q refs,
        0 ≤ e.similarity ∧ e.similarity ≤ 1) := by
  have hperm : (calculate_similarity_batch encode cosSim q refs).Perm
      (simEntries encode cosSim (encode q) 0 refs) :=
    List.mergeSort_perm _ simDesc
  have hlen0 := simEntries_length encode cosSim (encode q) refs 0
  have hmapidx : ((calculate_similarity_batch encode cosSim q refs).map
      (·.index)).Perm (List.range refs.length) := by
    rw [List.range_eq_range',
      ← simEntries_map_index encode cosSim (encode q) refs 0]
    exact hperm.map _
  have hnodupidx : ((calculate_similarity_batch encode cosSim q refs).map
      (·.index)).Nodup :=
    hmapidx.nodup_iff.mpr (List.nodup_range _)
  have hnodup : (calculate_similarity_batch encode cosSim q refs).Nodup :=
    List.Nodup.of_map _ hnodupidx
  refine ⟨hperm.length_eq.trans hlen0, hmapidx, ?_, ?_, ?_⟩
  · exact (List.sorted_mergeSort simDesc_trans simDesc_total _).imp
      fun h => by simpa [simDesc] using h
  · refine List.pairwise_iff_getElem.mpr ?_
    intro i j hi hj hij hsim
    have hamem : (calculate_similarity_batch encode cosSim q refs)[i] ∈
        simEntries encode cosSim (encode q) 0 refs :=
      hperm.mem_iff.mp (List.getElem_mem hi)
    have hbmem : (calculate_similarity_batch encode cosSim q refs)[j] ∈
        simEntries encode cosSim (encode q) 0 refs :=
      hperm.mem_iff.mp (List.getElem_mem hj)
    obtain ⟨ka, hka, hae⟩ := simEntries_mem refs 0 hamem
    obtain ⟨kb, hkb, hbe⟩ := simEntries_mem refs 0 hbmem
    have haidx : (calculate_similarity_batch encode cosSim q refs)[i].index =
        ka := by rw [hae]; simp
    have hbidx : (calculate_similarity_batch encode cosSim q refs)[j].index =
        kb := by rw [hbe]; simp
    rw [haidx, hbidx]
    rcases Nat.lt_trichotomy ka kb with hlt | heq | hgt
    · exact hlt
    · exfalso
      subst heq
      have hab : (calculate_similarity_batch encode cosSim q refs)[i] =
          (calculate_similarity_batch encode cosSim q refs)[j] :=
        hae.trans hbe.symm
      have := hnodup.getElem_inj_iff.mp hab
      omega
    · exfalso
      have hkb0 : kb < (simEntries encode cosSim (encode q) 0 refs).length := by
        rw [hlen0]; exact hkb
      have hka0 : ka < (simEntries encode cosSim (encode q) 0 refs).length := by
        rw [hlen0]; exact hka
      have hpair := pair_sublist_of_get
        (simEntries encode cosSim (encode q) 0 refs) kb ka hkb0 hka0 hgt
      rw [simEntries_get encode cosSim (encode q) refs 0 kb hkb hkb0,
        simEntries_get encode cosSim (encode q) refs 0 ka hka hka0,
        ← hae, ← hbe] at hpair
      have hba : simDesc ((calculate_similarity_batch encode cosSim q refs)[j])
          ((calculate_similarity_batch encode cosSim q refs)[i]) = true := by
        simp [simDesc, hsim]
      have hout := List.pair_sublist_mergeSort simDesc_trans simDesc_total
        hba hpair
      obtain ⟨p, p2, hp, hp2, hpp, hgp, hgq⟩ := sublist_pair_get hout
      have hgp2 : (calculate_similarity_batch encode cosSim q refs)[p] =
          (calculate_similarity_batch encode cosSim q refs)[j] := by
        simpa using hgp
      have hgq2 : (calculate_similarity_batch encode cosSim q refs)[p2] =
          (calculate_similarity_batch encode cosSim q refs)[i] := by
        simpa using hgq
      have hpj : p = j := hnodup.getElem_inj_iff.mp hgp2
      have hqi : p2 = i := hnodup.getElem_inj_iff.mp hgq2
      omega
  · intro hrange e he
    have hmem : e ∈ simEntries encode cosSim (encode q) 0 refs :=
      hperm.mem_iff.mp he
    obtain ⟨k, hk, hke⟩ := simEntries_mem refs 0 hmem
    rw [hke]
    exact hrange _ _

/-- C4 witness: a concrete batch over two references with a pairwise
score in `[0,1]` has two entries, index fields permuting `0..1`, is
sorted descending, and every similarity lies in `[0,1]`. -/
theorem c4_batch_similarity_witness :
    (calculate_similarity_batch (fun s => (s.length : ℚ))
        (fun x y => if x = y then 1 else 1 / 2) "q" ["ref a", "bb"]).length =
      2 ∧
    ∀ e ∈ calculate_similarity_batch (fun s => (s.length : ℚ))
        (fun x y => if x = y then 1 else 1 / 2) "q" ["ref a", "bb"],
      0 ≤ e.similarity ∧ e.similarity ≤ 1 := by
  have h := c4_batch_similarity (fun s => (s.length : ℚ))
    (fun x y => if x = y then 1 else 1 / 2) "q" ["ref a", "bb"]
  exact ⟨h.1, h.2.2.2.2 (fun x y => by split <;> norm_num)⟩

/-! ### C9 -/

/-- C9: the similarity that `calculate_similarity_batch` assigns to
reference `i` (the entry whose index field is `i`) equals the per-pair
`calculate_similarity` of the query and that reference: batching never
changes a score. -/
theorem c9_batch_refines_pairwise {E : Type} (encode : String → E)
    (cosSim : E → E → ℚ) (q : String) (refs : List String) :
    ∀ e ∈ calculate_similarity_batch encode cosSim q refs,
      ∃ h : e.index < refs.length,
        e.similarity =
          calculate_similarity encode cosSim q (refs.get ⟨e.index, h⟩) := by
  intro e he
  have hm : e ∈ simEntries encode cosSim (encode q) 0 refs :=
    List.mem_mergeSort.mp he
  obtain ⟨k, hk, hke⟩ := simEntries_mem refs 0 hm
  subst hke
  refine ⟨by simpa using hk, ?_⟩
  simp [calculate_similarity]

/-- C9 witness: in a concrete batch of two references, the entry with
index `0` carries exactly the per-pair similarity of the query and
reference `0`. -/
theorem c9_batch_refines_pairwise_witness :
    ∃ h : (0 : ℕ) < (["aa", "b"] : List String).length,
      (SimEntry.mk "aa" 1 0).similarity =
        calculate_similarity (fun s => (s.length : ℚ)) (fun _ _ => 1) "q"
          ((["aa", "b"] : List String).get ⟨0, h⟩) := by
  have hm : SimEntry.mk "aa" 1 0 ∈
      calculate_similarity_batch (fun s => (s.length : ℚ))
        (fun _ _ => 1) "q" ["aa", "b"] :=
    List.mem_mergeSort.mpr (by simp [simEntries])
  simpa using c9_batch_refines_pairwise (fun s => (s.length : ℚ))
    (fun _ _ => 1) "q" ["aa", "b"] (SimEntry.mk "aa" 1 0) hm

/-! ### C6 -/

/-- C6 counterexample: the success check of `_try_requests_method` tests
the length of the *raw* extracted content, before normalization.  A raw
content of `'a'` followed by 100 `'@'` characters (length 101 > 100)
passes the check, but normalization erases the `'@'`s, leaving `"a"` of
length `1 ≤ 100`; the record is stored and the pipeline keeps it for
scoring (its normalized content is non-empty). -/
theorem c6_content_length_counterexample :
    try_requests_success id "" ""
        (String.mk ('a' :: List.replicate 100 '@')) "u" "d" =
      some ⟨"", "", "a", "u", "d"⟩ ∧
    ¬(100 < ("a" : String).length) ∧
    referenceContents [⟨"u", "t", "sn", "src"⟩]
        [.ok (some ⟨"", "", "a", "u", "d"⟩)] =
      [⟨"u", "t", "a", "d", "sn", "src"⟩] := by
  refine ⟨by decide, by decide, by decide⟩

/-- C6 amended: every record returned by the extraction success path has
*raw* content length strictly greater than 100, and its stored content is
the normalization of that raw content (which may be 100 characters or
shorter); the pipeline never keeps a record whose normalized content is
empty. -/
theorem c6_stored_content (nfc : List Char → List Char)
    (title description content url domain : String) (doc : CrawlDoc)
    (h : try_requests_success nfc title description content url domain =
      some doc) :
    100 < content.length ∧
    doc.content = normalizeStr nfc content ∧
    (∀ (articles : List RefArticle)
        (crawlRes : List (Except String (Option CrawlDoc)))
        (r : EvidenceRec), r ∈ referenceContents articles crawlRes →
        r.content ≠ "") := by
  rw [try_requests_success] at h
  split_ifs at h with hc
  · injection h with h2
    refine ⟨hc.2, by rw [← h2], ?_⟩
    intro articles crawlRes r hr
    rw [referenceContents, List.mem_filterMap] at hr
    obtain ⟨ar, hmem, hsome⟩ := hr
    rcases har : ar.2 with e | o
    · rw [har] at hsome; simp at hsome
    · rcases o with - | d
      · rw [har] at hsome; simp at hsome
      · rw [har] at hsome
        dsimp only at hsome
        split_ifs at hsome with hemp htitle
        all_goals
          rw [← Option.some.inj hsome]
          exact hemp

/-- C6 witness: at the concrete raw content used in the counterexample,
the raw length exceeds 100. -/
theorem c6_stored_content_witness :
    100 < (String.mk ('a' :: List.replicate 100 '@')).length :=
  (c6_stored_content id "" "" (String.mk ('a' :: List.replicate 100 '@'))
    "u" "d" ⟨"", "", "a", "u", "d"⟩ (by decide)).1

/-! ### C7 -/

/-- C7 counterexample: the 2-word text claim "tin giả" is rejected by the
request validator with `ValueError("Content quá ngắn (tối thiểu 3 từ)")`
(an HTTP 400), *not* with the terminal status `input_too_short`: no
result dictionary is produced at all, whatever the pipeline would do. -/
theorem c7_short_text_counterexample :
    countWords "tin giả" = 2 ∧
    api_check (fun _ _ => ({ status := "success" } : CheckResult))
        "tin giả" "text" =
      .error "Content quá ngắn (tối thiểu 3 từ)" := by
  refine ⟨by decide, rfl⟩

/-- C7 amended: a text-type request with fewer than 3 words (and
non-blank content) is rejected at validation with
`ValueError("Content quá ngắn (tối thiểu 3 từ)")` before the pipeline —
hence extraction — runs (the result does not depend on the pipeline);
`check_fact` itself returns `input_too_short` exactly when the
preprocessed keywords are empty and the full text is shorter than 15
characters. -/
theorem c7_short_text_rejected {R : Type} (pipeline : String → String → R)
    (content : String) (h1 : pyStripStr content ≠ "")
    (h2 : countWords content < 3) :
    api_check pipeline content "text" =
      .error "Content quá ngắn (tối thiểu 3 từ)" ∧
    (∀ (E : Type) (encode : String → E) (cosSim : E → E → ℚ)
        (preRes : Except String (Option Processed))
        (searchRes : Except String (List RefArticle))
        (crawlRes : List (Except String (Option CrawlDoc)))
        (scoreFault : Option String) (p : Processed),
      preRes = Except.ok (some p) →
      ((check_fact encode cosSim preRes searchRes crawlRes
          scoreFault).status = "input_too_short" ↔
        p.keywords = [] ∧ p.full_text.length < 15)) := by
  constructor
  · rw [api_check, validate_content, if_neg h1, if_pos ⟨rfl, h2⟩]
    rfl
  · intro E encode cosSim preRes searchRes crawlRes scoreFault p hpre
    subst hpre
    rw [check_fact.eq_def]
    dsimp only
    by_cases hshort : p.keywords = [] ∧ p.full_text.length < 15
    · rw [if_pos hshort]
      exact iff_of_true rfl hshort
    · rw [if_neg hshort]
      refine iff_of_false ?_ hshort
      rcases searchRes with e | arts
      · simp
      · rcases arts with - | ⟨a, rest⟩
        · simp
        · dsimp only
          split
          · simp
          · rcases scoreFault with - | e
            · simp
            · simp

/-- C7 witness: the validator rejects the concrete 2-word text claim
"tin giả", independently of the pipeline behind it. -/
theorem c7_short_text_rejected_witness :
    api_check (fun _ _ => (0 : ℕ)) "tin giả" "text" =
      .error "Content quá ngắn (tối thiểu 3 từ)" :=
  (c7_short_text_rejected (fun _ _ => (0 : ℕ)) "tin giả"
    (by decide) (by decide)).1

/-! ### C8 -/

/-- C8: `check_fact` never lets a stage fault escape: its result status is
always one of the five terminal statuses, and a fault raised by the
preprocessing, search, or scoring stage yields a result with status
`"error"` carrying that fault's message. -/
theorem c8_no_fault_escapes {E : Type} (encode : String → E)
    (cosSim : E → E → ℚ) (preRes : Except String (Option Processed))
    (searchRes : Except String (List RefArticle))
    (crawlRes : List (Except String (Option CrawlDoc)))
    (scoreFault : Option String) :
    ((check_fact encode cosSim preRes searchRes crawlRes scoreFault).status ∈
      (["error", "input_too_short", "no_references", "crawl_failed",
        "success"] : List String)) ∧
    (∀ e, preRes = .error e →
      check_fact encode cosSim preRes searchRes crawlRes scoreFault =
        { status := "error", error := some e }) ∧
    (∀ e p, preRes = .ok (some p) →
      ¬(p.keywords = [] ∧ p.full_text.length < 15) →
      searchRes = .error e →
      check_fact encode cosSim preRes searchRes crawlRes scoreFault =
        { status := "error", error := some e }) ∧
    (∀ e p a arts, preRes = .ok (some p) →
      ¬(p.keywords = [] ∧ p.full_text.length < 15) →
      searchRes = .ok (a :: arts) →
      referenceContents (a :: arts) crawlRes ≠ [] →
      scoreFault = some e →
      check_fact encode cosSim preRes searchRes crawlRes scoreFault =
        { status := "error", error := some e }) := by
  refine ⟨?_, ?_, ?_, ?_⟩
  · rcases preRes with e | o
    · simp [check_fact]
    · rcases o with - | p
      · simp [check_fact]
      · rw [check_fact.eq_def]
        dsimp only
        split_ifs with hshort
        · simp
        · rcases searchRes with e | arts
          · simp
          · rcases arts with - | ⟨a, rest⟩
            · simp
            · dsimp only
              split
              · simp
              · rcases scoreFault with - | e
                · simp
                · simp
  · intro e hpre
    subst hpre
    rfl
  · intro e p hpre hshort hsearch
    subst hpre
    subst hsearch
    rw [check_fact.eq_def]
    dsimp only
    rw [if_neg hshort]
  · intro e p a arts hpre hshort hsearch hrc hsf
    subst hpre
    subst hsearch
    subst hsf
    simp [check_fact, hshort, hrc]

/-- C8 witness: a preprocessing fault "boom" is converted into a result
with status `"error"` carrying the message. -/
theorem c8_no_fault_escapes_witness :
    check_fact (fun _ : String => (0 : ℕ)) (fun _ _ => 0)
        (.error "boom") (.ok []) [] none =
      { status := "error", error := some "boom" } :=
  (c8_no_fault_escapes (fun _ : String => (0 : ℕ)) (fun _ _ => 0)
    (.error "boom") (.ok []) [] none).2.1 "boom" rfl

/-! ### Helper lemmas: idempotence of the normalization pipeline -/

/-- No two adjacent plain spaces: the invariant `squeeze` establishes. -/
def noTwoSpaces (a b : Char) : Prop := ¬(a = ' ' ∧ b = ' ')

theorem lookup_mem_values {ps : List (Char × Char)} {c v : Char}
    (h : ps.lookup c = some v) : v ∈ ps.map Prod.snd := by
  induction ps with
  | nil => simp [List.lookup] at h
  | cons p rest ih =>
    rw [List.lookup] at h
    cases hb : c == p.1
    · rw [hb] at h
      simp [ih h]
    · rw [hb] at h
      simp [Option.some.inj h]

theorem lowerPairs_values_fixed :
    (lowerPairs.map Prod.snd).all
      (fun v => (lowerPairs.lookup v).isNone) = true := by decide

theorem lowerChar_idem (c : Char) : lowerChar (lowerChar c) = lowerChar c := by
  rcases hl : lowerPairs.lookup c with - | v
  · have h1 : lowerChar c = c := by rw [lowerChar, hl]
    rw [h1]
    exact h1
  · have h1 : lowerChar c = v := by rw [lowerChar, hl]
    rw [h1]
    have hv := lookup_mem_values hl
    have hfix := List.all_eq_true.mp lowerPairs_values_fixed v hv
    rcases hl2 : lowerPairs.lookup v with - | w
    · rw [lowerChar, hl2]
    · rw [hl2] at hfix
      simp at hfix

/-- The characters a fully-normalized string may contain: a plain space,
or an allowed non-whitespace character fixed by lowercasing. -/
def goodChar (c : Char) : Prop :=
  c = ' ' ∨ (isAllowed c = true ∧ c.isWhitespace = false ∧ lowerChar c = c)

theorem goodChar_space : goodChar ' ' := Or.inl rfl

theorem goodChar_of_step (a : Char) :
    goodChar (collapseMap (subChar (lowerChar a))) := by
  rw [subChar]
  by_cases hall : isAllowed (lowerChar a) = true
  · rw [if_pos hall, collapseMap]
    by_cases hws : (lowerChar a).isWhitespace = true
    · rw [if_pos hws]
      exact goodChar_space
    · rw [if_neg hws]
      exact Or.inr ⟨hall, by simpa using hws, lowerChar_idem a⟩
  · rw [if_neg hall, collapseMap, if_pos (by decide)]
    exact goodChar_space

theorem goodChar_lower {c : Char} (h : goodChar c) : lowerChar c = c := by
  rcases h with rfl | ⟨-, -, h3⟩
  · decide
  · exact h3

theorem goodChar_allowed {c : Char} (h : goodChar c) : isAllowed c = true := by
  rcases h with rfl | ⟨h1, -, -⟩
  · decide
  · exact h1

theorem goodChar_collapseMap {c : Char} (h : goodChar c) : collapseMap c = c := by
  rcases h with rfl | ⟨-, h2, -⟩
  · decide
  · rw [collapseMap, if_neg (by simp [h2])]

theorem map_id_of_forall {f : Char → Char} :
    ∀ l : List Char, (∀ c ∈ l, f c = c) → l.map f = l
  | [], _ => rfl
  | c :: r, h => by
    rw [List.map_cons, h c (by simp),
      map_id_of_forall r fun d hd => h d (by simp [hd])]

theorem squeeze_sublist : ∀ l : List Char, List.Sublist (squeeze l) l
  | [] => by simp [squeeze]
  | [a] => by simp [squeeze]
  | a :: b :: r => by
    rw [squeeze]
    split
    · exact (squeeze_sublist (b :: r)).cons a
    · exact (squeeze_sublist (b :: r)).cons₂ a

theorem squeeze_head : ∀ (b : Char) (r : List Char),
    (squeeze (b :: r)).head? = some b
  | b, [] => rfl
  | b, c :: r2 => by
    rw [squeeze]
    split
    · rename_i hcond
      have hb : b = ' ' := by
        have := (Bool.and_eq_true _ _).mp hcond
        simpa using this.1
      have hc : c = ' ' := by
        have := (Bool.and_eq_true _ _).mp hcond
        simpa using this.2
      rw [squeeze_head c r2, hb, hc]
    · rfl

theorem squeeze_chain : ∀ l : List Char, (squeeze l).Chain' noTwoSpaces
  | [] => by simp [squeeze]
  | [a] => by simp [squeeze]
  | a :: b :: r => by
    rw [squeeze]
    split
    · exact squeeze_chain (b :: r)
    · rename_i hcond
      rw [List.chain'_cons']
      refine ⟨?_, squeeze_chain (b :: r)⟩
      intro y hy
      rw [squeeze_head b r] at hy
      have hyb : b = y := by simpa using hy
      subst hyb
      intro ⟨h1, h2⟩
      exact hcond (by simp [h1, h2])

theorem squeeze_of_chain : ∀ l : List Char,
    l.Chain' noTwoSpaces → squeeze l = l
  | [], _ => rfl
  | [a], _ => rfl
  | a :: b :: r, h => by
    have hab : noTwoSpaces a b := List.chain'_cons.mp h |>.1
    rw [squeeze, if_neg ?_, squeeze_of_chain (b :: r) (List.Chain'.tail h)]
    intro hcond
    have := (Bool.and_eq_true _ _).mp hcond
    exact hab ⟨by simpa using this.1, by simpa using this.2⟩

theorem dropWhile_head_false {p : Char → Bool} :
    ∀ (l : List Char) (c : Char), (l.dropWhile p).head? = some c →
    p c = false
  | [], c, h => by simp at h
  | a :: t, c, h => by
    by_cases ha : p a = true
    · rw [List.dropWhile_cons, if_pos ha] at h
      exact dropWhile_head_false t c h
    · rw [List.dropWhile_cons, if_neg ha] at h
      have hac : a = c := by simpa using h
      subst hac
      simpa using ha

theorem dropWhile_idem {p : Char → Bool} (l : List Char) :
    (l.dropWhile p).dropWhile p = l.dropWhile p := by
  rcases hd : l.dropWhile p with - | ⟨c, t⟩
  · rfl
  · have hc := dropWhile_head_false l c (by rw [hd]; rfl)
    rw [List.dropWhile_cons, if_neg (by simp [hc])]

theorem mem_of_mem_dropWhile {p : Char → Bool} {c : Char} {l : List Char}
    (h : c ∈ l.dropWhile p) : c ∈ l := by
  have hd := List.takeWhile_append_dropWhile p l
  rw [← hd]
  exact List.mem_append_right _ h

theorem mem_pyStrip {c : Char} {l : List Char} (h : c ∈ pyStrip l) :
    c ∈ l := by
  rw [pyStrip, List.mem_reverse] at h
  have h2 := mem_of_mem_dropWhile h
  rw [List.mem_reverse] at h2
  exact mem_of_mem_dropWhile h2

theorem rstrip_append {p : Char → Bool} (x : List Char) :
    (x.reverse.dropWhile p).reverse ++ (x.reverse.takeWhile p).reverse = x := by
  have h := congrArg List.reverse
    (List.takeWhile_append_dropWhile p x.reverse)
  rw [List.reverse_append, List.reverse_reverse] at h
  exact h

theorem chain'_pyStrip {l : List Char} (h : l.Chain' noTwoSpaces) :
    (pyStrip l).Chain' noTwoSpaces := by
  have hdw : (l.dropWhile (·.isWhitespace)).Chain' noTwoSpaces := by
    have hd := List.takeWhile_append_dropWhile (·.isWhitespace) l
    rw [← hd] at h
    exact (List.chain'_append.mp h).2.1
  have key := @rstrip_append (·.isWhitespace)
    (l.dropWhile (·.isWhitespace))
  rw [← key] at hdw
  exact (List.chain'_append.mp hdw).1

theorem pyStrip_idem (l : List Char) : pyStrip (pyStrip l) = pyStrip l := by
  by_cases hu : pyStrip l = []
  · rw [hu]; rfl
  · obtain ⟨c, rest, hcr⟩ := List.exists_cons_of_ne_nil hu
    have key : pyStrip l ++
        ((l.dropWhile (·.isWhitespace)).reverse.takeWhile
          (·.isWhitespace)).reverse =
        l.dropWhile (·.isWhitespace) :=
      rstrip_append (l.dropWhile (·.isWhitespace))
    have hxhead : (l.dropWhile (·.isWhitespace)).head? = some c := by
      rw [← key, hcr]; rfl
    have hcws := dropWhile_head_false l c hxhead
    have hstripL : (pyStrip l).dropWhile (·.isWhitespace) = pyStrip l := by
      rw [hcr, List.dropWhile_cons, if_neg (by simp [hcws])]
    have hrev : (pyStrip l).reverse =
        (l.dropWhile (·.isWhitespace)).reverse.dropWhile (·.isWhitespace) :=
      List.reverse_reverse _
    show ((((pyStrip l).dropWhile (·.isWhitespace)).reverse).dropWhile
        (·.isWhitespace)).reverse = pyStrip l
    rw [hstripL, hrev, dropWhile_idem]
    rfl

theorem goodChar_of_mem_pipeline (l : List Char) :
    ∀ c ∈ ((pyLower l).map subChar).map collapseMap, goodChar c := by
  intro c hc
  rw [List.mem_map] at hc
  obtain ⟨b, hb, rfl⟩ := hc
  rw [List.mem_map] at hb
  obtain ⟨a2, ha2, rfl⟩ := hb
  rw [pyLower, List.mem_map] at ha2
  obtain ⟨a, -, rfl⟩ := ha2
  exact goodChar_of_step a

/-- Applying the four normalization passes to an already-normalized
string (all characters good, no two adjacent spaces, stripped) changes
nothing. -/
theorem normalize_fixed (nfc : List Char → List Char)
    (hfix : ∀ s : List Char, (∀ c ∈ s, goodChar c) → nfc s = s)
    (sq : List Char) (hgood : ∀ c ∈ sq, goodChar c)
    (hchain : sq.Chain' noTwoSpaces) :
    normalize_text nfc (pyStrip sq) = pyStrip sq := by
  by_cases hu : pyStrip sq = []
  · rw [hu]
    simp [normalize_text]
  · rw [normalize_text, if_neg hu]
    have hgu : ∀ d ∈ pyStrip sq, goodChar d :=
      fun d hd => hgood d (mem_pyStrip hd)
    rw [hfix _ hgu,
      show pyLower (pyStrip sq) = pyStrip sq from
        map_id_of_forall _ fun d hd => goodChar_lower (hgu d hd),
      show (pyStrip sq).map subChar = pyStrip sq from
        map_id_of_forall _ fun d hd => by
          rw [subChar, if_pos (goodChar_allowed (hgu d hd))],
      collapse,
      show (pyStrip sq).map collapseMap = pyStrip sq from
        map_id_of_forall _ fun d hd => goodChar_collapseMap (hgu d hd),
      squeeze_of_chain _ (chain'_pyStrip hchain)]
    exact pyStrip_idem sq

/-! ### C10 -/

/-- C10: `normalize_text` is deterministic (it is a pure function of its
input) and idempotent: normalizing twice gives exactly the normalization,
both on code-point lists and on strings.  The external Unicode NFC pass
is assumed to fix strings all of whose characters survive normalization
(ASCII word characters, precomposed Vietnamese letters, basic
punctuation, spaces) — a property of Unicode normal form C, since such
strings contain no combining sequences. -/
theorem c10_normalize_idempotent (nfc : List Char → List Char)
    (hfix : ∀ s : List Char, (∀ c ∈ s, goodChar c) → nfc s = s) :
    (∀ t : List Char,
      normalize_text nfc (normalize_text nfc t) = normalize_text nfc t) ∧
    (∀ s : String,
      normalizeStr nfc (normalizeStr nfc s) = normalizeStr nfc s) := by
  have hmain : ∀ t : List Char,
      normalize_text nfc (normalize_text nfc t) = normalize_text nfc t := by
    intro t
    by_cases ht : t = []
    · subst ht
      simp [normalize_text]
    · have hinner : normalize_text nfc t =
          pyStrip (squeeze (((pyLower (nfc t)).map subChar).map collapseMap)) := by
        rw [normalize_text, if_neg ht, collapse]
      rw [hinner]
      exact normalize_fixed nfc hfix _
        (fun c hc =>
          goodChar_of_mem_pipeline (nfc t) c ((squeeze_sublist _).subset hc))
        (squeeze_chain _)
  exact ⟨hmain, fun s => congrArg String.mk (hmain s.data)⟩

/-- C10 witness: with the identity as the (NFC-fixed-point) normalizer,
double normalization of a concrete mixed-case padded string equals single
normalization. -/
theorem c10_normalize_idempotent_witness :
    normalize_text id (normalize_text id ("  Tin GIẢ!  ").data) =
      normalize_text id ("  Tin GIẢ!  ").data :=
  (c10_normalize_idempotent id (fun _ _ => rfl)).1 ("  Tin GIẢ!  ").data

end FNC

section Sanity

example : FNC.normalize_text id "  Xin   CHÀO!!  ".data = "xin chào!!".data := by decide

example : FNC.normalize_text id ('a' :: List.replicate 100 '@') = ['a'] := by decide

end Sanity
